import Mathlib

/-!
# A shallow embedding of the jsonquery standard library

This development embeds the runtime semantics of the standard-library
evaluators of the jsonquery engine (`src/functions.ts`, the file holding
`buildFunction` and the `functions` table) and settles the specification's
claims about them.

Modelling conventions:

* A JavaScript runtime value is `RVal`.  Arrays and objects carry an
  allocation address (`addr`) next to a snapshot of their contents: two
  runtime values denote the same JavaScript object reference iff they carry
  the same address, so `===` on composites is address comparison while the
  contents are still available for structural reasoning.  `undefined` is
  represented by `Option.none` at the points where it can arise
  (member access), never stored in data.
* JavaScript numbers are `JSNum`: `NaN`, the two infinities, or a finite
  number modelled as an exact rational.  This is the exact-decimal
  idealisation of IEEE doubles: every concrete number appearing in a
  theorem below is exactly representable, so no double-rounding step is
  elided where it matters.  Overflow of finite arithmetic to infinity is
  not modelled; no theorem depends on it.
* String formatting of numbers (`String(x)`) is modelled exactly for the
  finite-decimal regime (which covers the shortest round-trip form of the
  doubles used here); JavaScript's exponential display for |x| ≥ 1e21 or
  |x| < 1e-6, and the hexadecimal/octal/binary string forms accepted by
  `ToNumber`, are outside the model — no theorem depends on them.
* Member access is modelled in two layers.  The faithful layer
  (`jsMemberM`, `getEvalM`) distinguishes three outcomes: a Value, the
  JavaScript `undefined`, or resolution *on the prototype chain* to a
  host object (`toString`, `hasOwnProperty`, `map`, `at`, …, recognised
  by explicit per-type name tables).  In the third case the program
  leaves the JSON-value fragment — the result is a host function whose
  further members include values (`fn.name` is a string) and throwing
  exotics (`fn.caller` is the poisoned `%ThrowTypeError%` accessor) —
  so the model records `none` («outside the modelled fragment») and
  theorems about such keys claim nothing beyond that marker.  The
  projection layer (`jsMember`, `getEval`) implements the own-data-
  property part only; it agrees with the faithful layer wherever that
  layer yields a value (`getEval_agrees_on_model`) and is applied only
  at such keys.
-/

/-- A JavaScript number: `NaN`, `Infinity`, `-Infinity`, or a finite
number (exact-rational idealisation of a double). -/
inductive JSNum where
  | nan
  | posInf
  | negInf
  | fin (q : ℚ)
deriving DecidableEq

/-- A JavaScript runtime value.  `arr`/`obj` carry their allocation
address (reference identity) together with a snapshot of the contents. -/
inductive RVal where
  | null
  | bool (b : Bool)
  | num (n : JSNum)
  | str (s : String)
  | arr (addr : Nat) (elems : List RVal)
  | obj (addr : Nat) (fields : List (String × RVal))

/-- `x !== null && x !== 0 && x !== false` — the `truthy` helper at the
bottom of `functions.ts`, used by `filter` and `if`.  Note that it holds
for the empty string and for `NaN`. -/
def truthySrc : RVal → Bool
  | .null => false
  | .num (.fin q) => !(q == 0)
  | .bool b => b
  | _ => true

/-- JavaScript truthiness (what `!!x`, `x && y`, `!x` test): `null`,
`false`, `0`, `NaN` and `""` are falsy; everything else is truthy. -/
def jsTruthy : RVal → Bool
  | .null => false
  | .bool b => b
  | .num (.fin q) => !(q == 0)
  | .num .nan => false
  | .num _ => true
  | .str s => !(s == "")
  | _ => true

/-- `===` on numbers: `NaN` is unequal to everything (itself included);
finite numbers compare by value. -/
def strictEqNum : JSNum → JSNum → Bool
  | .fin a, .fin b => a == b
  | .posInf, .posInf => true
  | .negInf, .negInf => true
  | _, _ => false

/-- SameValueZero on numbers (what `Set` and `Array.prototype.includes`
use): like `===` except that `NaN` equals `NaN`. -/
def svzNum : JSNum → JSNum → Bool
  | .nan, .nan => true
  | n, m => strictEqNum n m

/-- JavaScript `===`: primitives by value (`NaN` unequal to itself),
arrays and objects by reference (address). -/
def strictEq : RVal → RVal → Bool
  | .null, .null => true
  | .bool a, .bool b => a == b
  | .num a, .num b => strictEqNum a b
  | .str a, .str b => a == b
  | .arr a _, .arr b _ => a == b
  | .obj a _, .obj b _ => a == b
  | _, _ => false

/-- SameValueZero on values: like `===` but `NaN` equals `NaN`. -/
def svzEq : RVal → RVal → Bool
  | .num a, .num b => svzNum a b
  | a, b => strictEq a b

/-- Modelled from the spec: the §4.1 *value* equality the spec prescribes
for `eq`/`ne`/`in` — `NaN` equals nothing; arrays equal iff same length
with element-wise equal elements; objects equal iff same key set with
equal values, independent of key order.  Fuel-indexed to recurse through
nested containers; any fuel at least the nesting depth is exact. -/
def structEqF : Nat → RVal → RVal → Bool
  | _, .null, .null => true
  | _, .bool a, .bool b => a == b
  | _, .num a, .num b => strictEqNum a b
  | _, .str a, .str b => a == b
  | f + 1, .arr _ xs, .arr _ ys =>
      xs.length == ys.length &&
        (List.zip xs ys).all fun p => structEqF f p.1 p.2
  | f + 1, .obj _ xs, .obj _ ys =>
      (xs.all fun p => match ys.lookup p.1 with
        | some w => structEqF f p.2 w
        | none => false) &&
      (ys.all fun p => (xs.lookup p.1).isSome)
  | _, _, _ => false

/-- Decimal digits of a natural number (most significant first); `0 ↦ "0"`. -/
def natDigits (n : Nat) : String := toString n

/-- Left-pad a string with `'0'` to length `k`. -/
def padZeros (s : String) (k : Nat) : String :=
  String.mk (List.replicate (k - s.length) '0') ++ s

/-- The smallest `k ≤ 40` such that `q·10^k` is an integer, if any.
Every finite decimal (in particular the shortest round-trip form of any
double in the plain-decimal display regime) has such a `k`. -/
def decExp (q : ℚ) : Option Nat :=
  (List.range 41).find? fun k => (q * (10 : ℚ) ^ k).den == 1

/-- `String(x)` for a finite JavaScript number in the plain-decimal
display regime: the (shortest) terminating decimal expansion, e.g.
`-0.5 ↦ "-0.5"`, `101 ↦ "101"`. -/
def finToString (q : ℚ) : String :=
  match decExp q with
  | some 0 => toString q.num
  | some (k + 1) =>
      let n := (q * (10 : ℚ) ^ (k + 1)).num
      let a := n.natAbs
      (if n < 0 then "-" else "") ++
        natDigits (a / 10 ^ (k + 1)) ++ "." ++
        padZeros (natDigits (a % 10 ^ (k + 1))) (k + 1)
  | none => "?"

/-- `String(x)` for a JavaScript number. -/
def jsNumToString : JSNum → String
  | .nan => "NaN"
  | .posInf => "Infinity"
  | .negInf => "-Infinity"
  | .fin q => finToString q

/-- `String(v)`, fuel-indexed for nested arrays: primitives print their
canonical form, a plain object prints `"[object Object]"`, and an array
prints its elements joined by `","` (with `null` printing as the empty
string inside a join, per `Array.prototype.join`). -/
def jsToStringF : Nat → RVal → String
  | _, .null => "null"
  | _, .bool b => cond b "true" "false"
  | _, .num n => jsNumToString n
  | _, .str s => s
  | _, .obj _ _ => "[object Object]"
  | 0, .arr _ _ => ""
  | f + 1, .arr _ xs =>
      String.intercalate "," (xs.map fun x =>
        match x with
        | .null => ""
        | y => jsToStringF f y)

/-- Fuel ample for any value considered here: `jsToStringF` consumes one
unit of fuel per level of array nesting, so with this fuel the fuel-out
branch is unreachable below nesting depth 10⁶. -/
def ampleFuel : Nat := 1000000

/-- `String(v)` (`ToString`). -/
def jsToString (v : RVal) : String := jsToStringF ampleFuel v

/-- `ToPrimitive(v)` (hint number): primitives are themselves; arrays and
objects go through `valueOf`/`toString` and end up as their string form. -/
def toPrim : RVal → RVal
  | .arr a xs => .str (jsToString (.arr a xs))
  | .obj a fs => .str (jsToString (.obj a fs))
  | v => v

/-- One decimal digit. -/
def digitVal? (c : Char) : Option Nat :=
  if '0' ≤ c ∧ c ≤ '9' then some (c.toNat - '0'.toNat) else none

/-- Parse a non-empty run of decimal digits, returning the value, the
number of digits consumed, and the rest. -/
def parseDigitsAux : List Char → Nat → Nat → Nat × Nat × List Char
  | [], acc, k => (acc, k, [])
  | c :: cs, acc, k =>
      match digitVal? c with
      | some d => parseDigitsAux cs (acc * 10 + d) (k + 1)
      | none => (acc, k, c :: cs)

/-- Apply an exponent part (`e`/`E` already consumed) to a mantissa
given as `m / 10^fk`: a positive exponent multiplies the numerator, a
negative one the denominator. -/
def parseExpApply (m fk : Nat) (cs : List Char) : Option (ℚ × List Char) :=
  let (pos, cs4) :=
    match cs with
    | '+' :: t => (true, t)
    | '-' :: t => (false, t)
    | t => (true, t)
  let (ev, ek, rest) := parseDigitsAux cs4 0 0
  if ek == 0 then none
  else some (if pos then mkRat (m * 10 ^ ev) (10 ^ fk) else mkRat m (10 ^ (fk + ev)), rest)

/-- Parse an unsigned JavaScript decimal literal
(`digits [. digits] [e digits]` or `. digits [e digits]`), returning its
exact rational value `(intpart·10^fk + fracpart) / 10^fk` (scaled by the
exponent) and the unconsumed rest; `none` if no number starts here. -/
def parseUnsignedDec (cs : List Char) : Option (ℚ × List Char) :=
  let (ip, ik, rest1) := parseDigitsAux cs 0 0
  let (fp, fk, rest2) :=
    match rest1 with
    | '.' :: cs2 => parseDigitsAux cs2 0 0
    | _ => (0, 0, rest1)
  if ik == 0 && fk == 0 then none
  else
    let m : Nat := ip * 10 ^ fk + fp
    match rest2 with
    | 'e' :: cs3 => parseExpApply m fk cs3
    | 'E' :: cs3 => parseExpApply m fk cs3
    | r => some (mkRat m (10 ^ fk), r)

/-- JavaScript whitespace accepted around a numeric string. -/
def isJsWs (c : Char) : Bool :=
  c == ' ' || c == '\t' || c == '\n' || c == '\r'

/-- `ToNumber` of a string: trimmed empty string is `0`; otherwise an
optionally signed decimal literal or `Infinity`, which must consume the
whole string; anything else is `NaN`. -/
def strToNum (s : String) : JSNum :=
  let cs := (s.toList.dropWhile isJsWs).reverse.dropWhile isJsWs |>.reverse
  match cs with
  | [] => .fin 0
  | _ =>
    let (neg, cs1) :=
      match cs with
      | '-' :: t => (true, t)
      | '+' :: t => (false, t)
      | t => (false, t)
    if cs1 == "Infinity".toList then
      if neg then .negInf else .posInf
    else
      match parseUnsignedDec cs1 with
      | some (q, []) => .fin (if neg then -q else q)
      | _ => .nan

/-- `ToNumber(v)`: `null ↦ 0`, booleans to `0`/`1`, strings parsed,
arrays and objects via their string form. -/
def toNumber : RVal → JSNum
  | .null => .fin 0
  | .bool b => .fin (cond b 1 0)
  | .num n => n
  | .str s => strToNum s
  | .arr a xs => strToNum (jsToString (.arr a xs))
  | .obj a fs => strToNum (jsToString (.obj a fs))

/-- IEEE addition on the number model: `NaN` propagates;
`Infinity + -Infinity` is `NaN`. -/
def jsNumAdd : JSNum → JSNum → JSNum
  | .nan, _ => .nan
  | _, .nan => .nan
  | .posInf, .negInf => .nan
  | .negInf, .posInf => .nan
  | .posInf, _ => .posInf
  | _, .posInf => .posInf
  | .negInf, _ => .negInf
  | _, .negInf => .negInf
  | .fin a, .fin b => .fin (a + b)

/-- IEEE multiplication on the number model: `NaN` propagates;
`0 · ±Infinity` is `NaN`; otherwise infinities keep the product's sign. -/
def jsNumMul : JSNum → JSNum → JSNum
  | .nan, _ => .nan
  | _, .nan => .nan
  | .posInf, .posInf => .posInf
  | .posInf, .negInf => .negInf
  | .negInf, .posInf => .negInf
  | .negInf, .negInf => .posInf
  | .posInf, .fin b => if b == 0 then .nan else if b > 0 then .posInf else .negInf
  | .fin a, .posInf => if a == 0 then .nan else if a > 0 then .posInf else .negInf
  | .negInf, .fin b => if b == 0 then .nan else if b > 0 then .negInf else .posInf
  | .fin a, .negInf => if a == 0 then .nan else if a > 0 then .negInf else .posInf
  | .fin a, .fin b => .fin (a * b)

/-- IEEE division on the number model: `0/0` and `∞/∞` are `NaN`; a
nonzero finite number divided by `0` gives a signed infinity (the sign of
`0` is not modelled: division by the literal zero keeps the dividend's
sign); a finite number divided by an infinity gives `0`. -/
def jsNumDiv : JSNum → JSNum → JSNum
  | .nan, _ => .nan
  | _, .nan => .nan
  | .posInf, .posInf => .nan
  | .posInf, .negInf => .nan
  | .negInf, .posInf => .nan
  | .negInf, .negInf => .nan
  | .posInf, .fin b => if b < 0 then .negInf else .posInf
  | .negInf, .fin b => if b < 0 then .posInf else .negInf
  | .fin _, .posInf => .fin 0
  | .fin _, .negInf => .fin 0
  | .fin a, .fin b =>
      if b == 0 then (if a == 0 then .nan else if a > 0 then .posInf else .negInf)
      else .fin (a / b)

/-- `Math.min` of two numbers: `NaN` propagates. -/
def jsNumMin : JSNum → JSNum → JSNum
  | .nan, _ => .nan
  | _, .nan => .nan
  | .posInf, b => b
  | a, .posInf => a
  | .negInf, _ => .negInf
  | _, .negInf => .negInf
  | .fin a, .fin b => .fin (min a b)

/-- `Math.max` of two numbers: `NaN` propagates. -/
def jsNumMax : JSNum → JSNum → JSNum
  | .nan, _ => .nan
  | _, .nan => .nan
  | .negInf, b => b
  | a, .negInf => a
  | .posInf, _ => .posInf
  | _, .posInf => .posInf
  | .fin a, .fin b => .fin (max a b)

/-- Strict order on non-`NaN` numbers. -/
def jsNumLtB : JSNum → JSNum → Bool
  | .negInf, .negInf => false
  | .negInf, _ => true
  | _, .negInf => false
  | .posInf, _ => false
  | _, .posInf => true
  | .fin a, .fin b => a < b
  | _, _ => false

/-- The ECMAScript abstract relational comparison `a < b`: both operands
go through `ToPrimitive`; two strings compare lexicographically, any
other combination compares numerically after `ToNumber`, and the result
is *undefined* (`none`) when a `NaN` is involved. -/
def jsLess? (a b : RVal) : Option Bool :=
  match toPrim a, toPrim b with
  | .str sa, .str sb => some (decide (sa < sb))
  | pa, pb =>
      if toNumber pa = .nan || toNumber pb = .nan then none
      else some (jsNumLtB (toNumber pa) (toNumber pb))

/-- `a < b` (undefined comparisons are `false`). -/
def jsLtB (a b : RVal) : Bool := (jsLess? a b).getD false

/-- `a > b` (undefined comparisons are `false`). -/
def jsGtB (a b : RVal) : Bool := (jsLess? b a).getD false

/-- `a <= b`: `!(b < a)`, except `false` when the comparison is undefined. -/
def jsLteB (a b : RVal) : Bool :=
  match jsLess? b a with
  | none => false
  | some r => !r

/-- `a >= b`: `!(a < b)`, except `false` when the comparison is undefined. -/
def jsGteB (a b : RVal) : Bool :=
  match jsLess? a b with
  | none => false
  | some r => !r

/-- JavaScript `+` on values: after `ToPrimitive`, string concatenation
if either side is a string, numeric addition otherwise. -/
def jsAdd (a b : RVal) : RVal :=
  match toPrim a, toPrim b with
  | .str sa, pb => .str (sa ++ jsToString pb)
  | pa, .str sb => .str (jsToString pa ++ sb)
  | pa, pb => .num (jsNumAdd (toNumber pa) (toNumber pb))

/-- JavaScript `*` on values: numeric multiplication after `ToNumber`. -/
def jsMul (a b : RVal) : RVal :=
  .num (jsNumMul (toNumber a) (toNumber b))

/-- A runtime exception.  Both constructors are JavaScript `TypeError`s:
`reduceEmpty` is «Reduce of empty array with no initial value», `typeErr`
covers calling an array method on a non-array, spreading a non-iterable,
and `includes` on a non-array/non-string. -/
inductive JErr where
  | reduceEmpty
  | typeErr
deriving DecidableEq

/-- A key of a `get` path (`JSONPath` entries are strings or numbers;
numeric keys are integral in practice). -/
inductive JKey where
  | ks (s : String)
  | ki (n : Int)

/-- The index a string names as an array index: JavaScript array access
by string goes through the *canonical* numeric form (`toString` of the
index: decimal digits with no leading zero), so `"00"`, `"1.0"`, `"+1"`
are plain (absent) property names while `"0"`, `"17"` are indices. -/
def canonIdx (s : String) : Option Nat :=
  match s.toList with
  | [] => none
  | ['0'] => some 0
  | '0' :: _ => none
  | cs =>
      match parseDigitsAux cs 0 0 with
      | (v, _, []) => some v
      | _ => none

/-- The string-keyed members of `Object.prototype`, inherited by every
plain object, array, string, number and boolean (`__proto__` is an
accessor; the rest are functions — all resolve to host objects). -/
def objProtoNames : List String :=
  ["constructor", "hasOwnProperty", "isPrototypeOf", "propertyIsEnumerable",
   "toLocaleString", "toString", "valueOf", "__proto__", "__defineGetter__",
   "__defineSetter__", "__lookupGetter__", "__lookupSetter__"]

/-- The string-keyed members of `Array.prototype` beyond those of
`Object.prototype` (all host functions). -/
def arrProtoNames : List String :=
  ["at", "concat", "copyWithin", "entries", "every", "fill", "filter",
   "find", "findIndex", "findLast", "findLastIndex", "flat", "flatMap",
   "forEach", "includes", "indexOf", "join", "keys", "lastIndexOf", "map",
   "pop", "push", "reduce", "reduceRight", "reverse", "shift", "slice",
   "some", "sort", "splice", "toReversed", "toSorted", "toSpliced",
   "unshift", "values", "with"]

/-- The string-keyed members of `String.prototype` beyond those of
`Object.prototype`, Annex B methods included (all host functions). -/
def strProtoNames : List String :=
  ["anchor", "at", "big", "blink", "bold", "charAt", "charCodeAt",
   "codePointAt", "concat", "endsWith", "fixed", "fontcolor", "fontsize",
   "includes", "indexOf", "isWellFormed", "italics", "lastIndexOf", "link",
   "localeCompare", "match", "matchAll", "normalize", "padEnd", "padStart",
   "repeat", "replace", "replaceAll", "search", "slice", "small", "split",
   "startsWith", "strike", "sub", "substr", "substring", "sup",
   "toLocaleLowerCase", "toLocaleUpperCase", "toLowerCase", "toUpperCase",
   "toWellFormed", "trim", "trimEnd", "trimLeft", "trimRight", "trimStart"]

/-- The string-keyed members of `Number.prototype` beyond those of
`Object.prototype` (all host functions). -/
def numProtoNames : List String :=
  ["toExponential", "toFixed", "toPrecision"]

/-- The outcome of one faithful member access `v[key]`: a Value,
JavaScript `undefined`, or resolution on the prototype chain to a *host
object* (a built-in function, or `Object.prototype` itself via
`__proto__`) — a result outside the JSON-value fragment. -/
inductive MemRes where
  | undefined
  | val (v : RVal)
  | host

/-- Own-property-or-prototype lookup on an object's field list. -/
def objMemberM (fs : List (String × RVal)) (s : String) : MemRes :=
  match fs.lookup s with
  | some w => .val w
  | none => if objProtoNames.contains s then .host else .undefined

/-- One *faithful* member access `v[key]`: own data properties first
(object fields; index and `length` of arrays; character index and
`length` of strings), then the prototype chain — a key naming a
prototype member resolves to a host object (`.host`), every other
absent key to `undefined`.  Access on `null` is unreachable through
`get` (`?.` short-circuits first). -/
def jsMemberM : RVal → JKey → MemRes
  | .obj _ fs, .ks s => objMemberM fs s
  | .obj _ fs, .ki n => objMemberM fs (toString n)
  | .arr _ xs, .ki n =>
      if n < 0 then .undefined
      else match xs.get? n.toNat with
        | some w => .val w
        | none => .undefined
  | .arr _ xs, .ks s =>
      if s == "length" then .val (.num (.fin xs.length))
      else match canonIdx s with
        | some i =>
            (match xs.get? i with
             | some w => .val w
             | none => .undefined)
        | none =>
            if arrProtoNames.contains s || objProtoNames.contains s then .host
            else .undefined
  | .str s, .ki n =>
      if n < 0 then .undefined
      else match s.toList.get? n.toNat with
        | some c => .val (.str (String.mk [c]))
        | none => .undefined
  | .str s, .ks k =>
      if k == "length" then .val (.num (.fin s.length))
      else match canonIdx k with
        | some i =>
            (match s.toList.get? i with
             | some c => .val (.str (String.mk [c]))
             | none => .undefined)
        | none =>
            if strProtoNames.contains k || objProtoNames.contains k then .host
            else .undefined
  | .num _, .ks s =>
      if numProtoNames.contains s || objProtoNames.contains s then .host
      else .undefined
  | .bool _, .ks s => if objProtoNames.contains s then .host else .undefined
  | _, _ => .undefined

/-- One faithful step of the `get` loop (`value = value?.[prop]`).  The
state is `none` when an earlier step resolved to a host object (the run
has left the modelled fragment — a host function's members include
values such as `fn.name` and throwing exotics such as `fn.caller`, which
this development does not model); `some none` is `undefined`, which
propagates, as does `null` through `?.`. -/
def getStepM : Option (Option RVal) → JKey → Option (Option RVal)
  | none, _ => none
  | some none, _ => some none
  | some (some .null), _ => some none
  | some (some v), k =>
      match jsMemberM v k with
      | .undefined => some none
      | .val w => some (some w)
      | .host => none

/-- The faithful `get` evaluator: walk the path with `value?.[prop]`,
then `?? null`.  The result is `none` exactly when some step resolved on
the prototype chain to a host object — there the program computes with
host functions and the model claims nothing. -/
def getEvalM (path : List JKey) (v : RVal) : Option RVal :=
  (path.foldl getStepM (some (some v))).map fun o => o.getD .null

/-- One member access `v[key]` (`none` is `undefined`): the
*own-data-property projection* of `jsMemberM` — it collapses the `.host`
outcome to `none` and is therefore exact only at keys where `jsMemberM`
does not resolve on the prototype chain (`getEval_agrees_on_model`); the
evaluators below apply it only at such keys. -/
def jsMember : RVal → JKey → Option RVal
  | .obj _ fs, .ks s => fs.lookup s
  | .obj _ fs, .ki n => fs.lookup (toString n)
  | .arr _ xs, .ki n => if n < 0 then none else xs.get? n.toNat
  | .arr _ xs, .ks s =>
      if s == "length" then some (.num (.fin xs.length))
      else match canonIdx s with
        | some i => xs.get? i
        | none => none
  | .str s, .ki n => if n < 0 then none else (s.toList.get? n.toNat).map fun c => .str (String.mk [c])
  | .str s, .ks k =>
      if k == "length" then some (.num (.fin s.length))
      else match canonIdx k with
        | some i => (s.toList.get? i).map fun c => .str (String.mk [c])
        | none => none
  | _, _ => none

/-- One step of the `get` loop: `value = value?.[prop]` — `undefined`
(and `null`, through `?.`) propagates. -/
def getStep : Option RVal → JKey → Option RVal
  | none, _ => none
  | some .null, _ => none
  | some v, k => jsMember v k

/-- The `get` builder's evaluator, own-data-property projection: walk
the literal path with `value = value?.[prop]`, then `?? null`.  The
three arity cases of the source (`0`, `1`, many keys) all agree with
this single loop on `RVal` (where JSON `null` and `undefined` both end
up as `Null`).  It agrees with the faithful `getEvalM` wherever the
latter yields a value (`getEval_agrees_on_model`); the uses below are
all at such paths. -/
def getEval (path : List JKey) (v : RVal) : RVal :=
  (path.foldl getStep (some v)).getD .null

/-- `buildFunction((a, b) => !!(a && b))` — the `and` evaluator applied
to its two compiled arguments: `a && b` yields `a` if `a` is falsy and
`b` otherwise, and `!!` takes JavaScript truthiness. -/
def andEval (f g : RVal → RVal) (v : RVal) : RVal :=
  .bool (jsTruthy (if jsTruthy (f v) then g v else f v))

/-- `buildFunction((a, b) => !!(a || b))` — the `or` evaluator. -/
def orEval (f g : RVal → RVal) (v : RVal) : RVal :=
  .bool (jsTruthy (if jsTruthy (f v) then f v else g v))

/-- `buildFunction((a) => !a)` — the `not` evaluator. -/
def notEval (f : RVal → RVal) (v : RVal) : RVal :=
  .bool (!jsTruthy (f v))

/-- `buildFunction((a, b) => a === b)` — the `eq` evaluator. -/
def eqEval (f g : RVal → RVal) (v : RVal) : RVal :=
  .bool (strictEq (f v) (g v))

/-- `buildFunction((a, b) => a !== b)` — the `ne` evaluator. -/
def neEval (f g : RVal → RVal) (v : RVal) : RVal :=
  .bool (!strictEq (f v) (g v))

/-- The comparison evaluators `gt`, `gte`, `lt`, `lte`
(`buildFunction((a, b) => a > b)` and friends). -/
def gtEval (f g : RVal → RVal) (v : RVal) : RVal := .bool (jsGtB (f v) (g v))

/-- See `gtEval`. -/
def gteEval (f g : RVal → RVal) (v : RVal) : RVal := .bool (jsGteB (f v) (g v))

/-- See `gtEval`. -/
def ltEval (f g : RVal → RVal) (v : RVal) : RVal := .bool (jsLtB (f v) (g v))

/-- See `gtEval`. -/
def lteEval (f g : RVal → RVal) (v : RVal) : RVal := .bool (jsLteB (f v) (g v))

/-- Does `s` contain `pat` as a substring (`String.prototype.includes`). -/
def strContains (s pat : String) : Bool :=
  (List.range (s.length + 1)).any fun i => ((s.toList.drop i).take pat.length) == pat.toList

/-- The `in` evaluator: `(_values(data)).includes(getter(data))`.
`Array.prototype.includes` searches by SameValueZero;
`String.prototype.includes` (reachable because nothing checks the type at
runtime) is substring search on the string coercion of the needle; on any
other receiver `.includes` is not a function and the call throws. -/
def inEval (getter vals : RVal → RVal) (v : RVal) : Except JErr RVal :=
  match vals v with
  | .arr _ xs => .ok (.bool (xs.any fun y => svzEq y (getter v)))
  | .str s => .ok (.bool (strContains s (jsToString (getter v))))
  | _ => .error .typeErr

/-- The `not in` evaluator: the negation of `in` on the same arguments. -/
def notInEval (getter vals : RVal → RVal) (v : RVal) : Except JErr RVal :=
  match inEval getter vals v with
  | .ok (.bool b) => .ok (.bool (!b))
  | .ok w => .ok (.bool (!jsTruthy w))
  | .error e => .error e

/-- The `regex` evaluator: `regex.test(getter(data))` where `test` is the
(host-dialect) matcher compiled at build time, abstracted here as a
predicate on strings; `test` coerces its argument with `ToString`. -/
def regexEval (test : String → Bool) (getter : RVal → RVal) (v : RVal) : RVal :=
  .bool (test (jsToString (getter v)))

/-- `data.reduce((a, b) => a + b)` over `jsAdd` — the `sum` evaluator.
`reduce` on an empty array with no initial value throws; on a non-array
`.reduce` is not a function. -/
def sumEval : RVal → Except JErr RVal
  | .arr _ [] => .error .reduceEmpty
  | .arr _ (x :: xs) => .ok (xs.foldl jsAdd x)
  | _ => .error .typeErr

/-- `data.reduce((a, b) => a * b)` — the `prod` evaluator. -/
def prodEval : RVal → Except JErr RVal
  | .arr _ [] => .error .reduceEmpty
  | .arr _ (x :: xs) => .ok (xs.foldl jsMul x)
  | _ => .error .typeErr

/-- `sum()(data) / data.length` — the `average` evaluator (the division
is JavaScript `/`, which coerces with `ToNumber`). -/
def averageEval (v : RVal) : Except JErr RVal :=
  match sumEval v, v with
  | .ok s, .arr _ xs => .ok (.num (jsNumDiv (toNumber s) (.fin xs.length)))
  | .ok _, _ => .error .typeErr
  | .error e, _ => .error e

/-- `Math.min(...data)` — the `min` evaluator: spreads the input (arrays
spread their elements, strings their characters, anything else throws)
and folds `Math.min` from `Infinity`, coercing each argument with
`ToNumber`. -/
def minEval : RVal → Except JErr RVal
  | .arr _ xs => .ok (.num (xs.foldl (fun acc x => jsNumMin acc (toNumber x)) .posInf))
  | .str s => .ok (.num (s.toList.foldl
      (fun acc c => jsNumMin acc (strToNum (String.mk [c]))) .posInf))
  | _ => .error .typeErr

/-- `Math.max(...data)` — the `max` evaluator (fold from `-Infinity`). -/
def maxEval : RVal → Except JErr RVal
  | .arr _ xs => .ok (.num (xs.foldl (fun acc x => jsNumMax acc (toNumber x)) .negInf))
  | .str s => .ok (.num (s.toList.foldl
      (fun acc c => jsNumMax acc (strToNum (String.mk [c]))) .negInf))
  | _ => .error .typeErr

/-- `data.map(_callback)` — the `map` evaluator; the result array is a
fresh allocation (its address is the `fresh` argument, irrelevant to the
claims below).  A non-array receiver has no `.map` and throws. -/
def mapEval (f : RVal → Except JErr RVal) (fresh : Nat) : RVal → Except JErr RVal
  | .arr _ xs => (xs.mapM f).map fun ys => .arr fresh ys
  | _ => .error .typeErr

/-- `data.filter((item) => truthy(_predicate(item)))` — the `filter`
evaluator; note it tests the *source* `truthy`, not `!!`. -/
def filterEval (p : RVal → RVal) (fresh : Nat) : RVal → Except JErr RVal
  | .arr _ xs => .ok (.arr fresh (xs.filter fun x => truthySrc (p x)))
  | _ => .error .typeErr

/-- The `sort` comparator over the compiled `path` getter:
`a > b ? sign : a < b ? -sign : 0` with `sign = 1` for `"asc"` and `-1`
for `"desc"`. -/
def sortCompare (getter : RVal → RVal) (sign : Int) (x y : RVal) : Int :=
  if jsGtB (getter x) (getter y) then sign
  else if jsLtB (getter x) (getter y) then -sign
  else 0

/-- Insert `x` into `l` before the first element it does not have to
follow (comparator result `≤ 0`) — the insertion step of a stable sort. -/
def insertBy (c : α → α → Int) (x : α) : List α → List α
  | [] => [x]
  | y :: ys => if c x y > 0 then y :: insertBy c x ys else x :: y :: ys

/-- Stable insertion sort by an integer comparator.  ECMAScript requires
`Array.prototype.sort` to be stable; for comparators that are consistent
(as in every theorem below) all stable sorts agree, so this models the
engine's sort. -/
def stableSortBy (c : α → α → Int) : List α → List α
  | [] => []
  | x :: xs => insertBy c x (stableSortBy c xs)

/-- `data.slice().sort(compare)` — the `sort` evaluator: sorts a fresh
copy of the array (so the input is untouched); a non-array receiver has
no `.slice` and throws. -/
def sortEval (getter : RVal → RVal) (sign : Int) (fresh : Nat) :
    RVal → Except JErr RVal
  | .arr _ xs => .ok (.arr fresh (stableSortBy (sortCompare getter sign) xs))
  | _ => .error .typeErr

/-- One `Set.prototype.add`: append `x` unless a SameValueZero-equal
element is already present. -/
def setAdd (acc : List RVal) (x : RVal) : List RVal :=
  if acc.any fun y => svzEq y x then acc else acc ++ [x]

/-- `[...new Set(data)]` — the element list of the `uniq` evaluator:
insert every element in order into a `Set` (SameValueZero membership) and
read the set back in insertion order. -/
def jsUniq (l : List RVal) : List RVal := l.foldl setAdd []

/-- Is the value `Null`? -/
def isNullV : RVal → Bool
  | .null => true
  | _ => false

/-- `Array.prototype.join` with an explicit separator: elements are
converted with `ToString`, except `null`, which joins as the empty
string. -/
def arrJoinSep (sep : String) (xs : List RVal) : String :=
  String.intercalate sep (xs.map fun x =>
    match x with
    | .null => ""
    | y => jsToString y)

/-- `data.toReversed()` — the `reverse` evaluator: a fresh reversed
copy; `.toReversed` exists only on arrays, so any other receiver
throws. -/
def reverseEval (fresh : Nat) : RVal → Except JErr RVal
  | .arr _ xs => .ok (.arr fresh xs.reverse)
  | _ => .error .typeErr

/-- `data.length` — the `size` evaluator: property access throws on
`null`; arrays and strings have a `length`, a plain object only its own
`"length"` field if any, and numbers and booleans none — those cases
yield the JavaScript `undefined`, modelled as the `none` payload. -/
def sizeEval : RVal → Except JErr (Option RVal)
  | .null => .error .typeErr
  | .arr _ xs => .ok (some (.num (.fin xs.length)))
  | .str s => .ok (some (.num (.fin s.length)))
  | .obj _ fs => .ok (fs.lookup "length")
  | _ => .ok none

/-- `Object.keys(data)` — the `keys` evaluator: throws on `null`; index
strings for arrays and strings, the own keys for objects, nothing for
numbers and booleans. -/
def keysEval (fresh : Nat) : RVal → Except JErr RVal
  | .null => .error .typeErr
  | .arr _ xs => .ok (.arr fresh ((List.range xs.length).map fun i => .str (toString i)))
  | .str s => .ok (.arr fresh ((List.range s.length).map fun i => .str (toString i)))
  | .obj _ fs => .ok (.arr fresh (fs.map fun p => .str p.1))
  | _ => .ok (.arr fresh [])

/-- `Object.values(data)` — the `values` evaluator: throws on `null`;
the elements for arrays, the characters for strings, the own values for
objects, nothing for numbers and booleans. -/
def valuesEval (fresh : Nat) : RVal → Except JErr RVal
  | .null => .error .typeErr
  | .arr _ xs => .ok (.arr fresh xs)
  | .str s => .ok (.arr fresh (s.toList.map fun c => .str (String.mk [c])))
  | .obj _ fs => .ok (.arr fresh (fs.map Prod.snd))
  | _ => .ok (.arr fresh [])

/-- `data.flat()` — the `flatten` evaluator: one level of flattening of
a fresh array; `.flat` exists only on arrays. -/
def flattenEval (fresh : Nat) : RVal → Except JErr RVal
  | .arr _ xs =>
      .ok (.arr fresh (xs.flatMap fun x =>
        match x with
        | .arr _ ys => ys
        | y => [y]))
  | _ => .error .typeErr

/-- `data.join(separator)` — the `join` evaluator (the source defaults
the separator to `""`); `.join` exists only on arrays. -/
def joinEval (sep : String) : RVal → Except JErr RVal
  | .arr _ xs => .ok (.str (arrJoinSep sep xs))
  | _ => .error .typeErr

/-- `data.slice(0, Math.max(count, 0))` — the `limit` evaluator;
`.slice` exists on arrays *and strings* (a string receiver returns a
string), everything else throws. -/
def limitEval (count : Int) (fresh : Nat) : RVal → Except JErr RVal
  | .arr _ xs => .ok (.arr fresh (xs.take (max count 0).toNat))
  | .str s => .ok (.str (String.mk (s.toList.take (max count 0).toNat)))
  | _ => .error .typeErr

/-- `[...new Set(data)]` as an evaluator — the `uniq` evaluator: the
`Set` constructor accepts any iterable (arrays, strings — spread into
characters) *and* `null` (which gives the empty set), and throws on
numbers, booleans and plain objects (not iterable). -/
def uniqEval (fresh : Nat) : RVal → Except JErr RVal
  | .arr _ xs => .ok (.arr fresh (jsUniq xs))
  | .str s => .ok (.arr fresh (jsUniq (s.toList.map fun c => .str (String.mk [c]))))
  | .null => .ok (.arr fresh [])
  | _ => .error .typeErr

/-- `Math.round` on the exact-rational model: the closest integer,
half-ties toward `+∞` — i.e. `⌊x + 1/2⌋`.  (That `Math.round(-0.5)` is
`-0` rather than `0` is invisible here: both print as `"0"` and the
model has a single zero.) -/
def jsMathRound (x : ℚ) : ℤ := ⌊x + 1 / 2⌋

/-- The `round` function body,
`Number(`${value}e${digits}`)` → `Math.round` → `Number(`${num}e${-digits}`)`,
on the exact-decimal model: appending `e±digits` to the printed form
scales by a power of ten exactly, so the body computes
`⌊value·10^digits + 1/2⌋ / 10^digits`. -/
def roundFn (value : ℚ) (digits : ℤ) : ℚ :=
  (jsMathRound (value * (10 : ℚ) ^ digits) : ℚ) / (10 : ℚ) ^ digits

/-- A store of allocated containers, for the claims about mutation:
addresses bound to array contents or object fields. -/
inductive HObj where
  | harr (elems : List RVal)
  | hobj (fields : List (String × RVal))

/-- An address not bound in the store. -/
def freshAddr (st : List (Nat × HObj)) : Nat :=
  (st.map Prod.fst).foldr max 0 + 1

/-- Store-passing `sort`: `data.slice()` allocates a fresh array, `.sort`
sorts that copy in place, and the binding of every pre-existing address —
the input array's included — is untouched. -/
def sortSt (c : RVal → RVal → Int) (st : List (Nat × HObj)) (a : Nat) :
    List (Nat × HObj) × RVal :=
  match st.lookup a with
  | some (.harr xs) =>
      ((freshAddr st, .harr (stableSortBy c xs)) :: st,
        .arr (freshAddr st) (stableSortBy c xs))
  | _ => (st, .null)

/-- Store-passing `reverse`: `data.toReversed()` allocates a fresh
reversed copy and leaves every existing binding alone. -/
def reverseSt (st : List (Nat × HObj)) (a : Nat) :
    List (Nat × HObj) × RVal :=
  match st.lookup a with
  | some (.harr xs) =>
      ((freshAddr st, .harr xs.reverse) :: st, .arr (freshAddr st) xs.reverse)
  | _ => (st, .null)

/-- Store-passing `object` builder: `const obj = {}` allocates a fresh
object and fills it with the getters' results; existing bindings are
untouched. -/
def objectSt (getters : List (String × (RVal → RVal))) (st : List (Nat × HObj))
    (v : RVal) : List (Nat × HObj) × RVal :=
  ((freshAddr st, .hobj (getters.map fun g => (g.1, g.2 v))) :: st,
    .obj (freshAddr st) (getters.map fun g => (g.1, g.2 v)))

/-- Store-passing `array` builder: `_items.map(...)` allocates a fresh
array of the items' results; existing bindings are untouched. -/
def arraySt (items : List (RVal → RVal)) (st : List (Nat × HObj))
    (v : RVal) : List (Nat × HObj) × RVal :=
  ((freshAddr st, .harr (items.map fun i => i v)) :: st,
    .arr (freshAddr st) (items.map fun i => i v))

/-- Is the value an array? -/
def isArrV : RVal → Bool
  | .arr _ _ => true
  | _ => false

/-- Is the value a non-empty array? -/
def isNonEmptyArrV : RVal → Bool
  | .arr _ (_ :: _) => true
  | _ => false

/-- Is the value a string? -/
def isStrV : RVal → Bool
  | .str _ => true
  | _ => false

/-- The elements of an array value (`[]` for non-arrays). -/
def elemsOf : RVal → List RVal
  | .arr _ xs => xs
  | _ => []

theorem except_map_isOk (h : α → β) (e : Except JErr α) :
    (e.map h).isOk = e.isOk := by
  cases e <;> rfl

theorem mapM_except_isOk (f : RVal → Except JErr RVal) (xs : List RVal) :
    (xs.mapM f).isOk = xs.all fun x => (f x).isOk := by
  induction xs with
  | nil => rfl
  | cons x xs ih =>
      rw [List.mapM_cons, List.all_cons, ← ih]
      cases hf : f x with
      | error e => simp [bind, Except.bind, Except.isOk, Except.toBool, hf]
      | ok y =>
          cases hm : xs.mapM f with
          | error e =>
              simp [bind, Except.bind, Except.isOk, Except.toBool, hf, hm]
          | ok ys =>
              simp [bind, Except.bind, Except.isOk, Except.toBool, hf, hm,
                pure, Except.pure]

/-- C2 (amended): on the empty array the numeric folds do not return the
spec's defaults — `sum`, `prod` and `average` throw the `TypeError`
«Reduce of empty array with no initial value» (`reduce` with no seed),
and `min`/`max` return `Infinity`/`-Infinity` (the fold seeds of
`Math.min`/`Math.max`), not `Null`.  On non-empty arrays the folds
compute as expected (witnessed at `[1,2]` and `[2,3]`). -/
theorem numeric_folds_on_empty :
    (∀ a : Nat, sumEval (.arr a []) = .error .reduceEmpty) ∧
    (∀ a : Nat, prodEval (.arr a []) = .error .reduceEmpty) ∧
    (∀ a : Nat, averageEval (.arr a []) = .error .reduceEmpty) ∧
    (∀ a : Nat, minEval (.arr a []) = .ok (.num .posInf)) ∧
    (∀ a : Nat, maxEval (.arr a []) = .ok (.num .negInf)) ∧
    sumEval (.arr 0 [.num (.fin 1), .num (.fin 2)]) = .ok (.num (.fin 3)) ∧
    prodEval (.arr 0 [.num (.fin 2), .num (.fin 3)]) = .ok (.num (.fin 6)) :=
  ⟨fun _ => rfl, fun _ => rfl, fun _ => rfl, fun _ => rfl, fun _ => rfl,
    by show Except.ok (RVal.num (.fin ((1 : ℚ) + 2))) = _; norm_num,
    by show Except.ok (RVal.num (.fin ((2 : ℚ) * 3))) = _; norm_num⟩

/-- C2, counterexample to the claim as stated: on the empty array `sum`
evaluates to a thrown `TypeError`, not `0`; `prod` not `1`; and
`average`, `min`, `max` not `Null`. -/
theorem numeric_folds_empty_spec_false :
    sumEval (.arr 0 []) = .error .reduceEmpty ∧
    sumEval (.arr 0 []) ≠ .ok (.num (.fin 0)) ∧
    prodEval (.arr 0 []) ≠ .ok (.num (.fin 1)) ∧
    averageEval (.arr 0 []) ≠ .ok .null ∧
    minEval (.arr 0 []) ≠ .ok .null ∧
    maxEval (.arr 0 []) ≠ .ok .null := by
  refine ⟨rfl, ?_, ?_, ?_, ?_, ?_⟩ <;>
    simp [sumEval, prodEval, averageEval, minEval, maxEval]

/-- C1 (amended): the totality invariant as stated is *false* — compiled
evaluators can throw runtime `TypeError`s that §7 does not document, the
sharpest instance being the numeric folds on the empty array, where §4.3
and §8 document the values `0`/`1`/`Null` (`average_empty_undocumented_throw`).
This theorem characterises, for each of the seventeen embedded stdlib
evaluators (no exhaustiveness over the rest of the library is claimed),
exactly the inputs on which it fails: `sum`/`prod`/`average` fail on the
empty array and on non-arrays; `min`/`max` on receivers that are neither
arrays nor strings (spread of a non-iterable); `map`, `filter`, `sort`,
`reverse`, `flatten` and `join` on non-arrays (`map` also propagates its
callback's errors); `in` when its `values` expression yields neither an
array nor a string; `size`, `keys` and `values` on `null`; `limit` on
receivers that are neither arrays nor strings; and `uniq` on receivers
that are not iterable-or-`null`.  Every other input returns a result. -/
theorem stdlib_error_enumeration :
    (∀ v, (sumEval v).isOk = isNonEmptyArrV v) ∧
    (∀ v, (prodEval v).isOk = isNonEmptyArrV v) ∧
    (∀ v, (averageEval v).isOk = isNonEmptyArrV v) ∧
    (∀ v, (minEval v).isOk = (isArrV v || isStrV v)) ∧
    (∀ v, (maxEval v).isOk = (isArrV v || isStrV v)) ∧
    (∀ f fresh v, (mapEval f fresh v).isOk =
      (isArrV v && (elemsOf v).all fun x => (f x).isOk)) ∧
    (∀ p fresh v, (filterEval p fresh v).isOk = isArrV v) ∧
    (∀ getter sign fresh v, (sortEval getter sign fresh v).isOk = isArrV v) ∧
    (∀ g w v, (inEval g w v).isOk = (isArrV (w v) || isStrV (w v))) ∧
    (∀ fresh v, (reverseEval fresh v).isOk = isArrV v) ∧
    (∀ v, (sizeEval v).isOk = !isNullV v) ∧
    (∀ fresh v, (keysEval fresh v).isOk = !isNullV v) ∧
    (∀ fresh v, (valuesEval fresh v).isOk = !isNullV v) ∧
    (∀ fresh v, (flattenEval fresh v).isOk = isArrV v) ∧
    (∀ sep v, (joinEval sep v).isOk = isArrV v) ∧
    (∀ c fresh v, (limitEval c fresh v).isOk = (isArrV v || isStrV v)) ∧
    (∀ fresh v, (uniqEval fresh v).isOk = (isArrV v || isStrV v || isNullV v)) := by
  refine ⟨?_, ?_, ?_, ?_, ?_, ?_, ?_, ?_, ?_, ?_, ?_, ?_, ?_, ?_, ?_, ?_, ?_⟩
  · rintro (_|_|_|_|⟨a, (_|⟨x, xs⟩)⟩|_) <;> rfl
  · rintro (_|_|_|_|⟨a, (_|⟨x, xs⟩)⟩|_) <;> rfl
  · rintro (_|_|_|_|⟨a, (_|⟨x, xs⟩)⟩|_) <;> rfl
  · rintro (_|_|_|_|⟨a, xs⟩|_) <;> rfl
  · rintro (_|_|_|_|⟨a, xs⟩|_) <;> rfl
  · intro f fresh v
    rcases v with _|_|_|_|⟨a, xs⟩|_ <;> try rfl
    show ((xs.mapM f).map fun ys => RVal.arr fresh ys).isOk = _
    rw [except_map_isOk, mapM_except_isOk]
    rfl
  · intro p fresh v; rcases v with _|_|_|_|⟨a, xs⟩|_ <;> rfl
  · intro getter sign fresh v; rcases v with _|_|_|_|⟨a, xs⟩|_ <;> rfl
  · intro g w v
    rcases hw : w v with _|_|_|_|⟨a, xs⟩|_ <;>
      simp [inEval, hw, isArrV, isStrV, Except.isOk, Except.toBool]
  · intro fresh v; rcases v with _|_|_|_|⟨a, xs⟩|_ <;> rfl
  · rintro (_|_|_|_|⟨a, xs⟩|⟨a, fs⟩) <;> rfl
  · intro fresh v; rcases v with _|_|_|_|⟨a, xs⟩|_ <;> rfl
  · intro fresh v; rcases v with _|_|_|_|⟨a, xs⟩|_ <;> rfl
  · intro fresh v; rcases v with _|_|_|_|⟨a, xs⟩|_ <;> rfl
  · intro sep v; rcases v with _|_|_|_|⟨a, xs⟩|_ <;> rfl
  · intro c fresh v; rcases v with _|_|_|_|⟨a, xs⟩|_ <;> rfl
  · intro fresh v; rcases v with _|_|_|_|⟨a, xs⟩|_ <;> rfl

/-- C1, counterexample to the claim as stated: `average` on the empty
array throws (the `sum` it calls reduces an empty array with no initial
value), while §8 documents `average([])` as returning `Null` and §7
lists no error condition for it — an undocumented runtime error. -/
theorem average_empty_undocumented_throw :
    averageEval (.arr 5 []) = .error .reduceEmpty ∧
    averageEval (.arr 5 []) ≠ .ok .null := by
  refine ⟨rfl, ?_⟩; simp [averageEval, sumEval]

/-- C4 (amended): `and`, `or` and `not` return booleans computed from
*JavaScript* truthiness — which, beyond the spec's truthiness, also
treats the empty string and `NaN` as falsy.  Consequently
`and("", v) = false` for every `v` and `not("") = true`, while the
spec's own `truthy` (used by `filter`/`if`) holds of `""` and `NaN`. -/
theorem boolean_ops_js_truthiness :
    (∀ f g v, andEval f g v = .bool (jsTruthy (f v) && jsTruthy (g v))) ∧
    (∀ f g v, orEval f g v = .bool (jsTruthy (f v) || jsTruthy (g v))) ∧
    (∀ f v, notEval f v = .bool (!jsTruthy (f v))) ∧
    (∀ v : RVal, andEval (fun _ => .str "") (fun _ => v) .null = .bool false) ∧
    notEval (fun _ => .str "") .null = .bool true ∧
    truthySrc (.str "") = true ∧
    jsTruthy (.str "") = false ∧
    truthySrc (.num .nan) = true ∧
    jsTruthy (.num .nan) = false := by
  refine ⟨?_, ?_, fun f v => rfl, fun v => rfl, rfl, rfl, rfl, rfl, rfl⟩
  · intro f g v
    unfold andEval
    cases h : jsTruthy (f v) <;> simp [h]
  · intro f g v
    unfold orEval
    cases h : jsTruthy (f v) <;> simp [h]

/-- C4, counterexample to the claim as stated: with the empty string —
truthy under the spec's truthiness — `not("")` evaluates to `true`
(claimed `false`) and `and("", true)` to `false` (claimed `true`),
because `!` and `&&` use JavaScript truthiness, not the spec's. -/
theorem not_empty_string_true :
    notEval (fun _ => .str "") (.obj 0 []) = .bool true ∧
    andEval (fun _ => .str "") (fun _ => .bool true) (.obj 0 []) = .bool false ∧
    truthySrc (.str "") = true :=
  ⟨rfl, rfl, rfl⟩

/-- C8 (amended): `regex` always returns a boolean, but a non-string
target is not mapped to `false`: `RegExp.prototype.test` coerces its
argument with `ToString`, so the pattern is matched against the coerced
string — a target of `Null` (e.g. an absent key) is tested as the string
`"null"`.  The spec's own instance survives: a pattern anchored on `"a"`
does not match `"null"`, so `regex(.x, "^a")` with `x` absent is
`false`. -/
theorem regex_coerces_target :
    (∀ (test : String → Bool) g v, ∃ b, regexEval test g v = .bool b) ∧
    (∀ (test : String → Bool) a, regexEval test (getEval [.ks "x"]) (.obj a []) =
      .bool (test "null")) ∧
    regexEval (fun s => s.toList.take 1 == ['a']) (getEval [.ks "x"]) (.obj 0 []) =
      .bool false ∧
    (∀ (test : String → Bool) g a fs,
      regexEval test g (.obj a fs) = .bool (test (jsToString (g (.obj a fs))))) :=
  ⟨fun test g v => ⟨test (jsToString (g v)), rfl⟩, fun _ _ => rfl, rfl,
    fun _ _ _ _ => rfl⟩

/-- C8, counterexample to the claim as stated: `regex(.x, "ull")` on an
input lacking `x` — a `Null` target, not a String — returns `true`, not
`false`: the target coerces to the string `"null"`, which the pattern
`ull` (a pattern with no metacharacters, modelled as substring search)
matches. -/
theorem regex_null_target_matches :
    regexEval (fun s => strContains s "ull") (getEval [.ks "x"]) (.obj 0 []) = .bool true ∧
    strContains "null" "ull" = true ∧
    getEval [.ks "x"] (.obj 0 []) = .null :=
  ⟨rfl, rfl, rfl⟩

theorem foldl_getStep_none (path : List JKey) :
    path.foldl getStep none = none := by
  induction path with
  | nil => rfl
  | cons k rest ih => simpa [getStep] using ih

theorem foldl_getStepM_none (path : List JKey) :
    path.foldl getStepM none = none := by
  induction path with
  | nil => rfl
  | cons k rest ih => simpa [getStepM] using ih

theorem foldl_getStepM_undefined (path : List JKey) :
    path.foldl getStepM (some none) = some none := by
  induction path with
  | nil => rfl
  | cons k rest ih => simpa [getStepM] using ih

theorem jsMemberM_val_proj :
    ∀ (v : RVal) (k : JKey) (w : RVal), jsMemberM v k = .val w → jsMember v k = some w := by
  intro v k w h
  rcases v with _|b|n|s|⟨a, xs⟩|⟨a, fs⟩ <;> rcases k with s'|i <;>
    simp only [jsMemberM, jsMember, objMemberM] at h ⊢ <;>
    (repeat' split at h) <;> simp_all

theorem jsMemberM_undef_proj :
    ∀ (v : RVal) (k : JKey), jsMemberM v k = .undefined → jsMember v k = none := by
  intro v k h
  rcases v with _|b|n|s|⟨a, xs⟩|⟨a, fs⟩ <;> rcases k with s'|i <;>
    simp only [jsMemberM, jsMember, objMemberM] at h ⊢ <;>
    (repeat' split at h) <;> simp_all <;> assumption

theorem getStep_some (v : RVal) (hv : isNullV v = false) (k : JKey) :
    getStep (some v) k = jsMember v k := by
  cases v <;> simp_all [isNullV, getStep]

theorem getStepM_some (v : RVal) (hv : isNullV v = false) (k : JKey) :
    getStepM (some (some v)) k =
      (match jsMemberM v k with
       | .undefined => some none
       | .val w => some (some w)
       | .host => none) := by
  cases v <;> simp_all [isNullV, getStepM]

theorem fold_agree (path : List JKey) :
    ∀ (m : Option (Option RVal)) (o : Option RVal),
      (m = some none ∧ o = none) ∨ (∃ x, m = some (some x) ∧ o = some x) →
      path.foldl getStepM m = none ∨
      ((path.foldl getStepM m = some none ∧ path.foldl getStep o = none) ∨
        (∃ x, path.foldl getStepM m = some (some x) ∧ path.foldl getStep o = some x)) := by
  induction path with
  | nil =>
      intro m o hr
      right
      rcases hr with ⟨hm, ho⟩ | ⟨x, hm, ho⟩
      · exact Or.inl ⟨hm, ho⟩
      · exact Or.inr ⟨x, hm, ho⟩
  | cons k rest ih =>
      intro m o hr
      simp only [List.foldl_cons]
      rcases hr with ⟨hm, ho⟩ | ⟨x, hm, ho⟩
      · subst hm; subst ho
        exact ih (getStepM (some none) k) (getStep none k) (Or.inl ⟨rfl, rfl⟩)
      · subst hm; subst ho
        by_cases hx : isNullV x = true
        · have hn : x = .null := by cases x <;> simp_all [isNullV]
          subst hn
          exact ih _ _ (Or.inl ⟨rfl, rfl⟩)
        · have hx' : isNullV x = false := by simpa using hx
          rw [getStepM_some x hx' k, getStep_some x hx' k]
          cases hmem : jsMemberM x k with
          | undefined =>
              rw [jsMemberM_undef_proj x k hmem]
              exact ih _ _ (Or.inl ⟨rfl, rfl⟩)
          | val w =>
              rw [jsMemberM_val_proj x k w hmem]
              exact ih _ _ (Or.inr ⟨w, rfl, rfl⟩)
          | host =>
              left
              exact foldl_getStepM_none rest

/-- The own-property projection `getEval` agrees with the faithful
`getEvalM` wherever the latter yields a value — i.e. on every path that
never resolves on the prototype chain. -/
theorem getEval_agrees_on_model (path : List JKey) (v w : RVal)
    (h : getEvalM path v = some w) : getEval path v = w := by
  have hr := fold_agree path (some (some v)) (some v) (Or.inr ⟨v, rfl, rfl⟩)
  unfold getEvalM at h
  unfold getEval
  rcases hr with hnone | ⟨hm, ho⟩ | ⟨x, hm, ho⟩
  · rw [hnone] at h; cases h
  · rw [hm] at h
    rw [ho]
    simpa using h
  · rw [hm] at h
    rw [ho]
    simpa using h

/-- C5 (amended): `get` with zero keys is the identity (`Null` for
`Null`).  At each step: on an Object an *own* key is fetched, and an
absent key that names no prototype member yields `Null` with all
subsequent steps yielding `Null` — the `.a.b.c` on `{"a":{"b":null}}`
scenario of §8 still yields `Null`; on an Array an integer or
canonical-integer-string key fetches by index, but the key `"length"`
fetches the array's length (and on a String an integer key fetches a
one-character substring) rather than yielding `Null`; on numbers and
booleans non-prototype keys yield `Null`.  Keys that *do* name
prototype members (`toString`, `hasOwnProperty`, `map`, …) do not yield
`Null` either: they resolve on the prototype chain to host functions —
e.g. `get("toString", "name")` on `{}` runs on
`Object.prototype.toString` — and the run leaves the JSON-value
fragment (the model marks it `none` and claims nothing there, host
functions having value-returning and even throwing members). -/
theorem get_member_semantics :
    (∀ v, getEvalM [] v = some v) ∧
    (∀ a fs k rest, getEvalM (.ks k :: rest) (.obj a fs) =
      (match fs.lookup k with
       | some w => getEvalM rest w
       | none => if objProtoNames.contains k then none else some .null)) ∧
    (∀ a xs (i : Nat), getEvalM [.ki (i : Int)] (.arr a xs) =
      some ((xs.get? i).getD .null)) ∧
    (∀ a x0 x1, getEvalM [.ks "1"] (.arr a [x0, x1]) = some x1) ∧
    (∀ a xs, getEvalM [.ks "00"] (.arr a xs) = some .null) ∧
    (∀ a xs, getEvalM [.ks "length"] (.arr a xs) = some (.num (.fin xs.length))) ∧
    (∀ path, getEvalM path .null = some .null) ∧
    (∀ k n rest, getEvalM (.ks k :: rest) (.num n) =
      (if numProtoNames.contains k || objProtoNames.contains k then none
       else some .null)) ∧
    (∀ k b rest, getEvalM (.ks k :: rest) (.bool b) =
      (if objProtoNames.contains k then none else some .null)) ∧
    getEvalM [.ks "toString", .ks "name"] (.obj 0 []) = none ∧
    getEvalM [.ks "a", .ks "b", .ks "c"]
      (.obj 0 [("a", .obj 1 [("b", .null)])]) = some .null := by
  refine ⟨fun v => rfl, ?_, ?_, fun a x0 x1 => rfl, fun a xs => rfl,
    fun a xs => rfl, ?_, ?_, ?_, rfl, rfl⟩
  · intro a fs k rest
    show (rest.foldl getStepM (getStepM (some (some (.obj a fs))) (.ks k))).map _ = _
    have hm : getStepM (some (some (.obj a fs))) (.ks k) =
        (match fs.lookup k with
         | some w => some (some w)
         | none => if objProtoNames.contains k then none else some none) := by
      show (match objMemberM fs k with
            | .undefined => some none
            | .val w => some (some w)
            | .host => none) = _
      unfold objMemberM
      cases fs.lookup k with
      | some w => rfl
      | none => cases h : objProtoNames.contains k <;> simp [h]
    rw [hm]
    cases h : fs.lookup k with
    | some w => rfl
    | none =>
        cases hc : objProtoNames.contains k with
        | true => simp [foldl_getStepM_none]
        | false => simp [foldl_getStepM_undefined]
  · intro a xs i
    have hm : jsMemberM (.arr a xs) (.ki (i : Int)) =
        (match xs.get? i with
         | some w => .val w
         | none => .undefined) := by
      simp [jsMemberM, Int.toNat_ofNat]
    show (match jsMemberM (.arr a xs) (.ki (i : Int)) with
          | .undefined => some none
          | .val w => some (some w)
          | .host => none).map _ = _
    rw [hm]
    cases xs.get? i <;> rfl
  · intro path
    cases path with
    | nil => rfl
    | cons k rest =>
        show (rest.foldl getStepM (getStepM (some (some .null)) k)).map _ = _
        rw [show getStepM (some (some .null)) k = some none from rfl,
          foldl_getStepM_undefined]
        rfl
  · intro k n rest
    show (rest.foldl getStepM (getStepM (some (some (.num n))) (.ks k))).map _ = _
    have hm : getStepM (some (some (.num n))) (.ks k) =
        (if numProtoNames.contains k || objProtoNames.contains k then none
         else some none) := by
      show (match jsMemberM (.num n) (.ks k) with
            | .undefined => some none
            | .val w => some (some w)
            | .host => none) = _
      simp only [jsMemberM]
      cases h : numProtoNames.contains k || objProtoNames.contains k <;> simp [h]
    rw [hm]
    cases h : numProtoNames.contains k || objProtoNames.contains k <;>
      simp [foldl_getStepM_none, foldl_getStepM_undefined]
  · intro k b rest
    show (rest.foldl getStepM (getStepM (some (some (.bool b))) (.ks k))).map _ = _
    have hm : getStepM (some (some (.bool b))) (.ks k) =
        (if objProtoNames.contains k then none else some none) := by
      show (match jsMemberM (.bool b) (.ks k) with
            | .undefined => some none
            | .val w => some (some w)
            | .host => none) = _
      simp only [jsMemberM]
      cases h : objProtoNames.contains k <;> simp [h]
    rw [hm]
    cases h : objProtoNames.contains k <;>
      simp [foldl_getStepM_none, foldl_getStepM_undefined]

/-- C5, counterexample to the claim as stated: on an Array, the
non-integer key `"length"` does not yield `Null` — it fetches the
array's length; and on a String an integer key fetches a character, not
`Null`.  (Both facts are stated on the faithful `getEvalM`: these
accesses are own-property accesses, inside the modelled fragment.) -/
theorem get_length_not_null :
    getEvalM [.ks "length"] (.arr 0 [.num (.fin 7)]) = some (.num (.fin 1)) ∧
    getEvalM [.ks "length"] (.arr 0 [.num (.fin 7)]) ≠ some .null ∧
    getEvalM [.ki 0] (.str "abc") = some (.str "a") ∧
    getEvalM [.ki 0] (.str "abc") ≠ some .null := by
  refine ⟨rfl, ?_, rfl, ?_⟩
  · intro h
    exact RVal.noConfusion (Option.some.inj h)
  · intro h
    exact RVal.noConfusion (Option.some.inj h)

/-- C6 (amended): `round` performs *half-up* rounding (ties toward `+∞`,
i.e. `Math.round` semantics, `⌊x·10^d + 1/2⌋/10^d`) at the specified
decimal digit, not half-away-from-zero: whenever the fractional part at
the chosen digit is exactly one half the result rounds up, so
`round(0.5) = 1` and `round(1.005, 2) = 1.01` as the spec says, but
`round(-0.5) = 0`, not `-1`. -/
theorem round_half_up :
    (∀ (d k : ℤ) (x : ℚ), x * 10 ^ d = k + 1 / 2 →
      roundFn x d = ((k : ℚ) + 1) / 10 ^ d) ∧
    roundFn (1 / 2) 0 = 1 ∧
    roundFn (-1 / 2) 0 = 0 ∧
    roundFn (1005 / 1000) 2 = 101 / 100 := by
  refine ⟨?_, ?_, ?_, ?_⟩
  · intro d k x h
    unfold roundFn jsMathRound
    rw [h]
    have h2 : (k : ℚ) + 1 / 2 + 1 / 2 = ((k + 1 : ℤ) : ℚ) := by push_cast; ring
    rw [h2, Int.floor_intCast]
    push_cast
    ring
  · norm_num [roundFn, jsMathRound]
  · norm_num [roundFn, jsMathRound]
  · norm_num [roundFn, jsMathRound]

/-- Witness for `round_half_up`: the tie case applied at
`x = 1/2, d = 0, k = 0`. -/
theorem round_half_up_witness :
    roundFn (1 / 2) 0 = ((0 : ℤ) : ℚ) + 1 := by
  have := round_half_up.1 0 0 (1 / 2) (by norm_num)
  simpa using this

/-- C6, counterexample to the claim as stated: `round(-0.5)` evaluates
to `0` (`Math.round` rounds ties toward `+∞` and `-0` prints as `0`),
not the claimed `-1` — a tie on a negative number moves *toward* zero. -/
theorem round_neg_half_spec_false :
    roundFn (-1 / 2) 0 = 0 ∧ roundFn (-1 / 2) 0 ≠ -1 := by
  norm_num [roundFn, jsMathRound]

/-- C3 (amended): the equality used by `eq`/`ne` is strict equality
(`===`): Numbers compare by numeric value with `NaN` equal to nothing
(itself included), but Arrays and Objects compare by *reference*
(address), so a pair of structurally equal but distinct Arrays or
Objects is unequal.  `in` searches with SameValueZero
(`Array.prototype.includes`), which also compares composites by
reference but — unlike `===` — finds `NaN`; a list containing only a
structurally equal (not identical) Array does not contain the value. -/
theorem equality_strict_and_svz :
    (∀ q r : ℚ, strictEq (.num (.fin q)) (.num (.fin r)) = (q == r)) ∧
    (∀ v, strictEq (.num .nan) v = false) ∧
    (∀ v, strictEq v (.num .nan) = false) ∧
    (∀ i xs j ys, strictEq (.arr i xs) (.arr j ys) = (i == j)) ∧
    (∀ i fs j gs, strictEq (.obj i fs) (.obj j gs) = (i == j)) ∧
    (∀ f g v, eqEval f g v = .bool (strictEq (f v) (g v))) ∧
    (∀ f g v, neEval f g v = .bool (!strictEq (f v) (g v))) ∧
    svzEq (.num .nan) (.num .nan) = true ∧
    inEval (fun _ => .num .nan) (fun _ => .arr 5 [.num .nan]) .null = .ok (.bool true) ∧
    inEval (fun _ => .arr 7 [.num (.fin 1)])
      (fun _ => .arr 5 [.arr 6 [.num (.fin 1)]]) .null = .ok (.bool false) ∧
    structEqF 2 (.arr 7 [.num (.fin 1)]) (.arr 6 [.num (.fin 1)]) = true := by
  refine ⟨fun q r => rfl, ?_, ?_, fun i xs j ys => rfl, fun i fs j gs => rfl,
    fun f g v => rfl, fun f g v => rfl, rfl, rfl, rfl, rfl⟩
  · rintro (_|b|n|s|⟨a, xs⟩|⟨a, fs⟩) <;> rfl
  · rintro (_|b|n|s|⟨a, xs⟩|⟨a, fs⟩) <;> try rfl
    cases n <;> rfl

/-- C3, counterexample to the claim as stated: two structurally equal
Arrays at distinct addresses (`structEqF` certifies the spec's §4.1
value equality) are reported *unequal* by `eq`; and `in` *finds* `NaN`
in a list containing `NaN`, though the claim says `NaN` equals no
value. -/
theorem value_equality_spec_false :
    eqEval (fun _ => .arr 0 [.num (.fin 1)]) (fun _ => .arr 1 [.num (.fin 1)]) .null =
      .bool false ∧
    structEqF 2 (.arr 0 [.num (.fin 1)]) (.arr 1 [.num (.fin 1)]) = true ∧
    inEval (fun _ => .num .nan) (fun _ => .arr 2 [.num .nan]) .null = .ok (.bool true) :=
  ⟨rfl, rfl, rfl⟩

/-- C7 (amended): between two Numbers and between two Strings the
comparisons are the expected numeric and lexicographic orders, and any
comparison involving a `NaN` is `false`; but mixed or composite operands
are *not* uniformly `false` — the ECMAScript relational comparison
coerces them (`ToPrimitive`, then `ToNumber` unless both sides are
strings), so e.g. `null < 1` is `true` and `10 > "9"` is `true`, and
`sort` can therefore reorder mixed-type elements (`[10, "9"]` sorts to
`["9", 10]`).  Elements whose comparison is neither less nor greater do
keep their original relative order (`[null, false]` is unchanged). -/
theorem ordering_js_coercion :
    (∀ q r : ℚ, jsLtB (.num (.fin q)) (.num (.fin r)) = decide (q < r)) ∧
    (∀ q r : ℚ, jsGtB (.num (.fin q)) (.num (.fin r)) = decide (r < q)) ∧
    (∀ s t : String, jsLtB (.str s) (.str t) = decide (s < t)) ∧
    (∀ v, jsLtB (.num .nan) v = false) ∧
    (∀ v, jsGtB (.num .nan) v = false) ∧
    (∀ v, jsLtB v (.num .nan) = false) ∧
    (∀ v, jsGtB v (.num .nan) = false) ∧
    jsLtB .null (.num (.fin 1)) = true ∧
    jsGtB (.num (.fin 10)) (.str "9") = true ∧
    sortEval (fun x => x) 1 9 (.arr 0 [.num (.fin 10), .str "9"]) =
      .ok (.arr 9 [.str "9", .num (.fin 10)]) ∧
    sortEval (fun x => x) 1 9 (.arr 0 [.null, .bool false]) =
      .ok (.arr 9 [.null, .bool false]) := by
  refine ⟨?_, ?_, fun s t => rfl, ?_, ?_, ?_, ?_, rfl, rfl, rfl, rfl⟩
  · intro q r
    simp [jsLtB, jsLess?, toPrim, toNumber, jsNumLtB]
  · intro q r
    simp [jsGtB, jsLess?, toPrim, toNumber, jsNumLtB]
  · intro v
    rcases h : toPrim v with _|b|n|s|⟨a, xs⟩|⟨a, fs⟩ <;>
      simp [jsLtB, jsLess?, h, toPrim, toNumber]
  · intro v
    rcases h : toPrim v with _|b|n|s|⟨a, xs⟩|⟨a, fs⟩ <;>
      simp [jsGtB, jsLess?, h, toPrim, toNumber]
  · intro v
    rcases h : toPrim v with _|b|n|s|⟨a, xs⟩|⟨a, fs⟩ <;>
      simp [jsLtB, jsLess?, h, toPrim, toNumber]
  · intro v
    rcases h : toPrim v with _|b|n|s|⟨a, xs⟩|⟨a, fs⟩ <;>
      simp [jsGtB, jsLess?, h, toPrim, toNumber]

/-- C7, counterexample to the claim as stated: `null < 1` — a mixed-type
comparison — evaluates to `true` (the claim says every mixed pair yields
`false`), and `sort` on the mixed-type array `[10, null]` *reorders* it
to `[null, 10]` (the claim says mixed-type elements keep their original
relative order). -/
theorem mixed_comparison_spec_false :
    ltEval (fun _ => .null) (fun _ => .num (.fin 1)) .null = .bool true ∧
    sortEval (fun x => x) 1 9 (.arr 0 [.num (.fin 10), .null]) =
      .ok (.arr 9 [.null, .num (.fin 10)]) :=
  ⟨rfl, rfl⟩

theorem svzEq_refl (v : RVal) : svzEq v v = true := by
  rcases v with _|b|n|s|⟨a, xs⟩|⟨a, fs⟩ <;> try simp [svzEq, strictEq]
  cases n <;> simp [svzEq, svzNum, strictEqNum]

theorem setAdd_pos {acc : List RVal} {x : RVal}
    (h : (acc.any fun y => svzEq y x) = true) : setAdd acc x = acc := by
  simp [setAdd, h]

theorem setAdd_neg {acc : List RVal} {x : RVal}
    (h : (acc.any fun y => svzEq y x) = false) : setAdd acc x = acc ++ [x] := by
  simp [setAdd, h]

theorem uniq_aux_structure :
    ∀ (l acc : List RVal), ∃ t, l.foldl setAdd acc = acc ++ t ∧ t.Sublist l := by
  intro l
  induction l with
  | nil => exact fun acc => ⟨[], by simp, List.Sublist.refl []⟩
  | cons x xs ih =>
      intro acc
      show ∃ t, xs.foldl setAdd (setAdd acc x) = acc ++ t ∧ t.Sublist (x :: xs)
      cases h : acc.any fun y => svzEq y x with
      | true =>
          obtain ⟨t, ht, hs⟩ := ih acc
          exact ⟨t, by rw [setAdd_pos h, ht], hs.cons x⟩
      | false =>
          obtain ⟨t, ht, hs⟩ := ih (acc ++ [x])
          exact ⟨x :: t, by rw [setAdd_neg h, ht]; simp, hs.cons₂ x⟩

theorem uniq_aux_mem :
    ∀ (l acc : List RVal) y, y ∈ l →
      ∃ z ∈ l.foldl setAdd acc, svzEq z y = true := by
  intro l
  induction l with
  | nil => intro acc y hy; cases hy
  | cons x xs ih =>
      intro acc y hy
      show ∃ z ∈ xs.foldl setAdd (setAdd acc x), svzEq z y = true
      rcases List.mem_cons.mp hy with rfl | hmem
      · obtain ⟨t, ht, -⟩ := uniq_aux_structure xs (setAdd acc y)
        cases h : acc.any fun z => svzEq z y with
        | true =>
            obtain ⟨z, hz, hsvz⟩ := List.any_eq_true.mp h
            refine ⟨z, ?_, hsvz⟩
            rw [ht, setAdd_pos h]
            exact List.mem_append_left t hz
        | false =>
            refine ⟨y, ?_, svzEq_refl y⟩
            rw [ht, setAdd_neg h]
            exact List.mem_append_left t (by simp)
      · exact ih (setAdd acc x) y hmem

theorem uniq_aux_pairwise :
    ∀ (l acc : List RVal), (acc.Pairwise fun a b => svzEq a b = false) →
      ((l.foldl setAdd acc).Pairwise fun a b => svzEq a b = false) := by
  intro l
  induction l with
  | nil => exact fun acc h => h
  | cons x xs ih =>
      intro acc hacc
      show ((xs.foldl setAdd (setAdd acc x)).Pairwise _)
      refine ih (setAdd acc x) ?_
      cases h : acc.any fun y => svzEq y x with
      | true => rw [setAdd_pos h]; exact hacc
      | false =>
          rw [setAdd_neg h, List.pairwise_append]
          refine ⟨hacc, List.pairwise_singleton _ _, ?_⟩
          intro a ha b hb
          rw [List.mem_singleton.mp hb]
          have := List.any_eq_false.mp h a ha
          exact Bool.not_eq_true _ ▸ (by simpa using this)

/-- C10: `uniq` (`[...new Set(data)]`) deduplicates by SameValueZero,
not by the spec's §4.1 value equality: the result is a subsequence of
the input starting with its first element, every input element has a
SameValueZero-equal representative in it, no two of its elements are
SameValueZero-equal — and concretely, two structurally equal Arrays at
distinct addresses (certified structurally equal by `structEqF`) are
*both* retained, while all `NaN` occurrences collapse to the first. -/
theorem uniq_samevaluezero :
    (∀ l, (jsUniq l).Sublist l) ∧
    (∀ l y, y ∈ l → ∃ z ∈ jsUniq l, svzEq z y = true) ∧
    (∀ l, (jsUniq l).Pairwise fun a b => svzEq a b = false) ∧
    (∀ x xs, ∃ t, jsUniq (x :: xs) = x :: t ∧ t.Sublist xs) ∧
    jsUniq [.arr 0 [.num (.fin 1)], .arr 1 [.num (.fin 1)]] =
      [.arr 0 [.num (.fin 1)], .arr 1 [.num (.fin 1)]] ∧
    structEqF 2 (.arr 0 [.num (.fin 1)]) (.arr 1 [.num (.fin 1)]) = true ∧
    jsUniq [.num .nan, .num .nan, .num (.fin 1)] = [.num .nan, .num (.fin 1)] := by
  refine ⟨?_, ?_, ?_, ?_, rfl, rfl, rfl⟩
  · intro l
    obtain ⟨t, ht, hs⟩ := uniq_aux_structure l []
    rw [jsUniq, ht]
    simpa using hs
  · intro l y hy
    exact uniq_aux_mem l [] y hy
  · intro l
    exact uniq_aux_pairwise l [] (List.Pairwise.nil)
  · intro x xs
    obtain ⟨t, ht, hs⟩ := uniq_aux_structure xs [x]
    refine ⟨t, ?_, hs⟩
    show xs.foldl setAdd (setAdd [] x) = x :: t
    have h0 : setAdd [] x = [x] := rfl
    rw [h0]
    simpa using ht

/-- Witness for `uniq_samevaluezero`: its membership clause applied to
the singleton list `[NaN]` and its member `NaN`. -/
theorem uniq_samevaluezero_witness :
    ∃ z ∈ jsUniq [RVal.num .nan], svzEq z (.num .nan) = true :=
  uniq_samevaluezero.2.1 [.num .nan] (.num .nan) (List.mem_singleton.mpr rfl)

theorem lookup_lt_freshAddr :
    ∀ (st : List (Nat × HObj)) (k : Nat),
      (List.lookup k st).isSome → k < freshAddr st := by
  intro st
  induction st with
  | nil => intro k h; cases h
  | cons p st ih =>
      intro k h
      obtain ⟨a, x⟩ := p
      unfold freshAddr at *
      simp only [List.map_cons, List.foldr_cons]
      rw [List.lookup] at h
      cases hk : (k == a) with
      | true =>
          have hka : k = a := by simpa using hk
          subst hka
          exact Nat.lt_succ_of_le (Nat.le_max_left _ _)
      | false =>
          rw [hk] at h
          have := ih k h
          exact Nat.lt_succ_of_le (le_trans (Nat.le_of_lt_succ this) (Nat.le_max_right _ _))

theorem lookup_cons_fresh (st : List (Nat × HObj)) (x : HObj) (b : Nat)
    (h : (List.lookup b st).isSome) :
    List.lookup b ((freshAddr st, x) :: st) = List.lookup b st := by
  have hb : (b == freshAddr st) = false := by
    simpa using Nat.ne_of_lt (lookup_lt_freshAddr st b h)
  simp [List.lookup, hb]

/-- C9: the container-returning builders do not mutate their input: in
the store-passing model, `sort` (`data.slice().sort(...)` — the copy is
sorted, not the input), `reverse` (`data.toReversed()`), `object` and
`array` only *add* a fresh binding, so the binding of every
pre-existing address — in particular the input array's — is unchanged
after evaluation. -/
theorem builders_preserve_store :
    (∀ c st a b, (List.lookup b st).isSome →
      List.lookup b (sortSt c st a).1 = List.lookup b st) ∧
    (∀ st a b, (List.lookup b st).isSome →
      List.lookup b (reverseSt st a).1 = List.lookup b st) ∧
    (∀ gs st v b, (List.lookup b st).isSome →
      List.lookup b (objectSt gs st v).1 = List.lookup b st) ∧
    (∀ its st v b, (List.lookup b st).isSome →
      List.lookup b (arraySt its st v).1 = List.lookup b st) := by
  refine ⟨?_, ?_, ?_, ?_⟩
  · intro c st a b h
    unfold sortSt
    cases ha : List.lookup a st with
    | none => rfl
    | some o =>
        cases o with
        | harr xs => exact lookup_cons_fresh st _ b h
        | hobj fs => rfl
  · intro st a b h
    unfold reverseSt
    cases ha : List.lookup a st with
    | none => rfl
    | some o =>
        cases o with
        | harr xs => exact lookup_cons_fresh st _ b h
        | hobj fs => rfl
  · intro gs st v b h
    exact lookup_cons_fresh st _ b h
  · intro its st v b h
    exact lookup_cons_fresh st _ b h

/-- Witness for `builders_preserve_store`: sorting the array bound at
address `0` in a one-binding store leaves that binding unchanged. -/
theorem builders_preserve_store_witness :
    List.lookup 0 (sortSt (fun _ _ => 0) [(0, HObj.harr [RVal.null])] 0).1 =
      List.lookup 0 [(0, HObj.harr [RVal.null])] :=
  builders_preserve_store.1 (fun _ _ => 0) [(0, HObj.harr [RVal.null])] 0 0 rfl
